import Mathlib

/-!
Verification of the core of the Inko bytecode virtual machine.

This development shallowly embeds the interpreter dispatch of
`src/vm/src/vm/machine.rs` and the configuration loader of
`src/vm/src/config.rs`.  Pure data (object pointers, compiled code,
execution contexts) is embedded as inductive types and structures; the
per-instruction handlers become functions from machine state to an
explicit outcome type, and the process context stack is a `List` whose
head is the current context.  Helpers living outside the embedded files
(`ExecutionContext`, `Process`, `CompiledCode` methods) are modelled from
the specification and marked as such in their doc comments.
-/

namespace InkoVM

/-- Object pointers of the VM, embedded as a plain inductive value type.
`nullp` stands for `ObjectPointer::null()`, the content of a cleared
(reset) register or local slot; `nilObj`, `trueObj` and `falseObj` are the
canonical sentinel objects held by the VM state; `vint` is a (small or
promoted) integer; `vstr` a string object; `varray` an array object;
`obj` any other heap object, identified by an id. -/
inductive Val where
  | nullp : Val
  | nilObj : Val
  | trueObj : Val
  | falseObj : Val
  | vint : Int → Val
  | vstr : String → Val
  | varray : List Val → Val
  | obj : Nat → Val

/-- From `ObjectPointer::is_zero_integer` (object_pointer.rs, outside src/).
Modelled from the spec: tag bits distinguish small integers, so the test
holds exactly for the integer value zero. -/
def Val.is_zero_integer : Val → Bool
  | .vint n => n == 0
  | _ => false

/-- One catch-table entry `{start, end, jump_to, register}` (spec §3); the
source field `end` is a Lean keyword and is embedded as `end_`. -/
structure CatchEntry where
  start : Nat
  end_ : Nat
  jump_to : Nat
  register : Nat
  deriving DecidableEq, Repr

/-- A compiled code unit (spec §3).  Only the attributes the verified
claims touch are embedded.  `arity_label` stands for the string produced
by `CompiledCode::label_for_number_of_arguments` (compiled_code.rs,
outside src/); Modelled from the spec: the compiled code publishes a
label describing its expected argument count, kept here as a stored
attribute. -/
structure CompiledCode where
  name : String
  catch_table : List CatchEntry
  required_arguments : Nat
  optional_arguments : Nat
  rest_argument : Bool
  keywords : List (String × Nat)
  arity_label : String
  max_registers : Nat
  max_locals : Nat

/-- One activation frame (spec §3).  The binding's locals and receiver are
folded into the context; the parent chain is represented by the position
of the context in the process's stack (a `List ExecutionContext` whose
head is the current context). -/
structure ExecutionContext where
  code : CompiledCode
  instruction_index : Nat
  registers : List Val
  locals : List Val
  receiver : Val
  return_register : Option Nat
  deferred_blocks : List Val
  terminate_upon_return : Bool

/-- Reading a register file slot (`Process::get_register` /
`ExecutionContext::get_register`, outside src/).  A register file is
pre-sized to `max_registers` and initially null, so a read of a slot
never written yields `Val.nullp`. -/
def getReg (regs : List Val) (r : Nat) : Val :=
  regs.getD r Val.nullp

/-- Writing a register file slot (`ExecutionContext::set_register`,
outside src/). -/
def setReg (regs : List Val) (r : Nat) (v : Val) : List Val :=
  regs.set r v

/-- From `Machine::throw` (machine.rs lines 1916-1929): the entry selected
in a context's catch table is the first one with
`entry.start < index && entry.end >= index`. -/
def find_catch_entry (code : CompiledCode) (index : Nat) : Option CatchEntry :=
  code.catch_table.find? (fun e => decide (e.start < index ∧ index ≤ e.end_))

/-- From `Machine::throw` (machine.rs lines 1941-1944): the error string
produced when a thrown value reaches the top level,
`format!("A thrown value reached the top-level in process {}", pid)`. -/
def uncaught_throw_message (pid : Nat) : String :=
  "A thrown value reached the top-level in process " ++ toString pid

/-- The unwinding loop of `Machine::throw` (machine.rs lines 1904-1947),
with the carried deferred-block vector made explicit.  The process's
context stack is the list argument, head first.  In each frame the catch
table is consulted; on a match the frame is updated in place
(`instruction_index := jump_to`, thrown value into the entry's register,
carried deferred blocks appended to the frame's queue) and unwinding
stops.  Otherwise, when the frame has a parent its deferred blocks are
moved onto the carry vector (`move_deferred_blocks_to`) and the frame is
popped; when the root frame fails to match it stays in place
(`Process::pop_context` leaves a parentless context on the stack), the
carried blocks are appended to it and the uncaught-throw error is
returned.  The queue-transfer helpers `append_deferred_blocks` and
`move_deferred_blocks_to` live in execution_context.rs (outside src/) and
are Modelled from the spec: a splice of one queue onto the other,
embedded as list append. -/
def throw_unwind (pid : Nat) (value : Val) (deferred : List Val) :
    List ExecutionContext → List ExecutionContext × Option String
  | [] => ([], some (uncaught_throw_message pid))
  | c :: rest =>
    match find_catch_entry c.code c.instruction_index with
    | some entry =>
      ({ c with
          instruction_index := entry.jump_to,
          registers := setReg c.registers entry.register value,
          deferred_blocks := c.deferred_blocks ++ deferred } :: rest, none)
    | none =>
      match rest with
      | [] =>
        ([{ c with deferred_blocks := c.deferred_blocks ++ deferred }],
         some (uncaught_throw_message pid))
      | _ :: _ => throw_unwind pid value (deferred ++ c.deferred_blocks) rest

/-- `Machine::throw` starts unwinding with an empty carried
deferred-block vector (`let mut deferred = Vec::new()`). -/
def Machine.throw (pid : Nat) (value : Val) (stack : List ExecutionContext) :
    List ExecutionContext × Option String :=
  throw_unwind pid value [] stack

/-- All deferred blocks carried by a list of frames, in stack order. -/
def carried_deferred (frames : List ExecutionContext) : List Val :=
  frames.foldr (fun c acc => c.deferred_blocks ++ acc) []

/-- Outcome of one interpreter dispatch step as observed by the worker.
`continued` means the updated context stack keeps executing in-process;
`panicked` means `Machine::run` returned `Err(msg)`, which
`run_with_error_handling` (machine.rs lines 252-277) routes to
`Machine::panic` — the process panic machinery.  Catch tables are never
consulted on the `panicked` path; only the `throw_value!` /
`throw_error_message!` macros (which call `Machine::throw`) dispatch a
failure through catch tables. -/
inductive StepFate where
  | continued : List ExecutionContext → StepFate
  | panicked : String → StepFate

/-- From machine.rs lines 442-457 (`InstructionType::IntegerDiv`): when
the divisor register holds the integer zero the handler executes
`return Err("Can not divide an Integer by 0".to_string())`; otherwise it
performs floored division via `integer_overflow_op!`.  The arithmetic
helpers (numeric::division, outside src/) promote on overflow to
arbitrary precision, so with unbounded integers the result is exact
floored division (`Int.fdiv`); non-integer operands make the helper fail
with an interpreter error whose exact text lives outside src/ and is
immaterial here. -/
def integer_div_step (c : ExecutionContext) (reg lhs_reg rhs_reg : Nat) :
    Except String ExecutionContext :=
  let divide_with := getReg c.registers rhs_reg
  if divide_with.is_zero_integer then
    Except.error "Can not divide an Integer by 0"
  else
    match getReg c.registers lhs_reg, divide_with with
    | Val.vint a, Val.vint b =>
      Except.ok { c with registers := setReg c.registers reg (Val.vint (Int.fdiv a b)) }
    | _, _ => Except.error "IntegerDiv applied to non-integer operands"

/-- The IntegerDiv instruction as one dispatch step of `Machine::run`: an
`Ok` context continues execution, an `Err` propagates out of the
interpreter (via `?`) and becomes a process panic in
`run_with_error_handling` — regardless of any catch-table entry covering
the instruction. -/
def dispatch_integer_div (stack : List ExecutionContext) (reg lhs_reg rhs_reg : Nat) :
    StepFate :=
  match stack with
  | [] => StepFate.panicked "no execution context"
  | c :: rest =>
    match integer_div_step c reg lhs_reg rhs_reg with
    | Except.ok c2 => StepFate.continued (c2 :: rest)
    | Except.error msg => StepFate.panicked msg

/-- The process attributes `ProcessReceiveMessage` touches: the mailbox
(FIFO, spec §4.5) and the waiting-for-message flag.  `Process`
/ `Mailbox` live outside src/; Modelled from the spec: `receive_message`
pops the front of the FIFO mailbox, `no_longer_waiting_for_message`
clears the flag, `wait_for_message` sets it. -/
structure ReceiveState where
  mailbox : List Val
  waiting_for_message : Bool
  context : ExecutionContext

/-- Outcome of a `ProcessReceiveMessage` dispatch: either execution
continues (`continue` in the loop), or the process suspends waiting for a
message with the optional timeout value and the interpreter returns. -/
inductive ReceiveOutcome where
  | continued : ReceiveState → ReceiveOutcome
  | suspended : ReceiveState → Val → ReceiveOutcome

/-- From machine.rs lines 922-953 (`InstructionType::ProcessReceiveMessage`).
`index` is the post-increment fetch index (the loop already executed
`index += 1`), so storing `index - 1` makes the receive itself re-execute
on resumption.  The timeout passed to the suspension machinery is the raw
content of the timeout register (`process::optional_timeout`, outside
src/, interprets it). -/
def process_receive_message (nil_object : Val) (st : ReceiveState)
    (reg time_reg index : Nat) : ReceiveOutcome :=
  match st.mailbox with
  | msg :: rest_mail =>
    ReceiveOutcome.continued
      { st with
          mailbox := rest_mail,
          waiting_for_message := false,
          context := { st.context with
            registers := setReg st.context.registers reg msg } }
  | [] =>
    if st.waiting_for_message then
      ReceiveOutcome.continued
        { st with
            waiting_for_message := false,
            context := { st.context with
              registers := setReg st.context.registers reg nil_object } }
    else
      ReceiveOutcome.suspended
        { st with
            waiting_for_message := true,
            context := { st.context with instruction_index := index - 1 } }
        (getReg st.context.registers time_reg)

/-- From machine.rs lines 960-969 (`InstructionType::ProcessSuspendCurrent`):
the timeout register is read, the post-increment index is stored as the
resumption point, `process::suspend` parks the process and the
interpreter returns.  The result is the suspended context and the raw
timeout value. -/
def process_suspend_current (c : ExecutionContext) (time_reg index : Nat) :
    ExecutionContext × Val :=
  ({ c with instruction_index := index }, getReg c.registers time_reg)

/-- Outcome of a `MoveToPool` dispatch: an invalid pool id is an
interpreter error; a pinned process or a move to the current pool writes
false and continues; otherwise the context records the resumption point,
the process is handed to the target pool and the interpreter returns. -/
inductive MoveToPoolOutcome where
  | invalid : String → MoveToPoolOutcome
  | continued : ExecutionContext → MoveToPoolOutcome
  | rescheduled : ExecutionContext → Nat → MoveToPoolOutcome

/-- From machine.rs lines 1151-1190 (`InstructionType::MoveToPool`).
Pool-id validity (`pool_id_is_valid`), pinning (`thread_id`) and the
current pool assignment are process/state attributes outside src/ and are
passed as parameters. -/
def move_to_pool (true_object false_object : Val) (c : ExecutionContext)
    (reg pool_id : Nat) (valid_pool pinned : Bool) (current_pool : Nat)
    (index : Nat) : MoveToPoolOutcome :=
  if !valid_pool then
    MoveToPoolOutcome.invalid
      ("The process pool ID " ++ toString pool_id ++ " is invalid")
  else if pinned then
    MoveToPoolOutcome.continued
      { c with registers := setReg c.registers reg false_object }
  else if pool_id == current_pool then
    MoveToPoolOutcome.continued
      { c with registers := setReg c.registers reg false_object }
  else
    MoveToPoolOutcome.rescheduled
      { c with
          registers := setReg c.registers reg true_object,
          instruction_index := index }
      pool_id

/-- The value a `Return` hands to the caller: the optional value register
(`instruction.arg_opt(1)`), defaulting to the nil object. -/
def return_object (nil_object : Val) (c : ExecutionContext)
    (value_reg : Option Nat) : Val :=
  match value_reg with
  | some r => getReg c.registers r
  | none => nil_object

/-- Outcome of a `Return` dispatch.  `ran_deferred blocks c rest` means
the listed deferred blocks were scheduled as fresh contexts on top of the
rewound context `c` (whose queue is now empty and whose
`instruction_index` points back at the Return instruction); `finished`
means the root context was popped and the process completed;
`halted_terminate` is the `terminate_upon_return` exit. -/
inductive ReturnOutcome where
  | ran_deferred : List Val → ExecutionContext → List ExecutionContext → ReturnOutcome
  | halted_terminate : ReturnOutcome
  | finished : ReturnOutcome
  | returned : List ExecutionContext → ReturnOutcome

/-- From machine.rs lines 373-414 (`InstructionType::Return`), for a
non-block return (`instruction.arg(0) ≠ 1`; the block-return unwinding
`process::unwind_until_defining_scope` lives outside src/).  `index` is
the post-increment fetch index; `remember_and_reset!` stores `index - 1`
so Return re-executes after the deferred blocks complete.
`ExecutionContext::schedule_deferred_blocks` (outside src/) is Modelled
from the spec (§4.7): it returns true exactly when the queue is
non-empty, draining the queue and pushing one fresh context per block;
the scheduled blocks are listed in the outcome. -/
def return_step (nil_object : Val) (stack : List ExecutionContext)
    (value_reg : Option Nat) (index : Nat) : ReturnOutcome :=
  match stack with
  | [] => ReturnOutcome.finished
  | c :: rest =>
    match c.deferred_blocks with
    | b :: bs =>
      ReturnOutcome.ran_deferred (b :: bs)
        { c with deferred_blocks := [], instruction_index := index - 1 } rest
    | [] =>
      if c.terminate_upon_return then ReturnOutcome.halted_terminate
      else
        match rest with
        | [] => ReturnOutcome.finished
        | parent :: rest2 =>
          match c.return_register with
          | some r =>
            ReturnOutcome.returned
              ({ parent with
                  registers := setReg parent.registers r
                    (return_object nil_object c value_reg) } :: rest2)
          | none => ReturnOutcome.returned (parent :: rest2)

/-- The arity error string built inline in
`Machine::validate_number_of_arguments` (machine.rs lines 1794-1799):
`format!("{} takes {} arguments but {} were supplied", name, label, n)`. -/
def arity_error (code : CompiledCode) (arguments : Nat) : String :=
  code.name ++ " takes " ++ code.arity_label ++ " arguments but " ++
    toString arguments ++ " were supplied"

/-- `CompiledCode::valid_number_of_arguments` (compiled_code.rs, outside
src/); Modelled from the spec (§4.4): the callee publishes
(min_args, max_args_excluding_rest, has_rest), and a count is valid when
it reaches the required positionals and, absent a rest parameter, does
not exceed required + optional. -/
def valid_number_of_arguments (code : CompiledCode) (given : Nat) : Bool :=
  code.required_arguments ≤ given &&
    (code.rest_argument || given ≤ code.required_arguments + code.optional_arguments)

/-- From `Machine::validate_number_of_arguments` (machine.rs lines
1784-1803): positional and keyword counts are added and checked against
the callee's arity metadata; on failure the call errors with the
formatted message. -/
def validate_number_of_arguments (code : CompiledCode)
    (given_positional given_keyword : Nat) : Except String Unit :=
  let arguments := given_positional + given_keyword
  if !(valid_number_of_arguments code arguments) then
    Except.error (arity_error code arguments)
  else
    Except.ok ()

/-- `CompiledCode::number_of_arguments_to_set` (compiled_code.rs, outside
src/); Modelled from the spec (§4.4 steps 2-3): the locals receive
min(given, required + optional) positional arguments, and the excess is
packed exactly when a rest parameter exists and more positionals were
given. -/
def number_of_arguments_to_set (code : CompiledCode) (given : Nat) : Bool × Nat :=
  let expected := code.required_arguments + code.optional_arguments
  (code.rest_argument && decide (expected < given), min given expected)

/-- `CompiledCode::rest_argument_index` (compiled_code.rs, outside src/);
Modelled from the spec (§4.4 step 3): the rest-argument local follows the
declared positionals. -/
def rest_argument_index (code : CompiledCode) : Nat :=
  code.required_arguments + code.optional_arguments

/-- From `Machine::set_positional_arguments` (machine.rs lines
1805-1816): locals 0..k receive the values of the listed caller
registers, in order. -/
def set_positional_arguments (caller_regs : List Val) (locals : List Val)
    (registers : List Nat) : List Val :=
  registers.enum.foldl (fun ls p => ls.set p.1 (getReg caller_regs p.2)) locals

/-- From `Machine::pack_excessive_arguments` (machine.rs lines
1818-1836): the values of the excess argument registers are collected
into an array stored at the rest-argument local. -/
def pack_excessive_arguments (caller_regs : List Val) (locals : List Val)
    (pack_local : Nat) (registers : List Nat) : List Val :=
  locals.set pack_local (Val.varray (registers.map (getReg caller_regs)))

/-- `CompiledCode::argument_position` (compiled_code.rs, outside src/);
Modelled from the spec (§4.4 step 4): the keyword name — an interned
string — is looked up among the callee's declared argument names,
yielding the local index to overwrite when present. -/
def argument_position (code : CompiledCode) (name : Val) : Option Nat :=
  match name with
  | Val.vstr s => (code.keywords.find? (fun p => p.1 == s)).map (fun p => p.2)
  | _ => none

/-- `chunks(2)` over the keyword section of the instruction arguments:
(name_register, value_register) pairs; a trailing odd register is never
produced by the compiler and is ignored. -/
def to_pairs : List Nat → List (Nat × Nat)
  | a :: b :: rest => (a, b) :: to_pairs rest
  | _ => []

/-- The loop body of `Machine::prepare_keyword_arguments`: read the name
and value registers; when the name is a declared argument, overwrite that
local, otherwise leave the locals untouched. -/
def kw_step (caller_regs : List Val) (code : CompiledCode)
    (ls : List Val) (p : Nat × Nat) : List Val :=
  match argument_position code (getReg caller_regs p.1) with
  | some index => ls.set index (getReg caller_regs p.2)
  | none => ls

/-- From `Machine::prepare_keyword_arguments` (machine.rs lines
1884-1902). -/
def prepare_keyword_arguments (caller_regs : List Val) (code : CompiledCode)
    (locals : List Val) (keyword_args : List Nat) : List Val :=
  (to_pairs keyword_args).foldl (kw_step caller_regs code) locals

/-- From `Machine::prepare_new_context` (machine.rs lines 1838-1882).
`caller_regs` is the register file `process.get_register` reads from (the
current context at call time); `args` is the full instruction argument
list, with positional argument registers starting at `pos_start`. -/
def prepare_new_context (caller_regs : List Val) (args : List Nat)
    (context : ExecutionContext) (given_positional given_keyword pos_start : Nat) :
    Except String ExecutionContext :=
  match validate_number_of_arguments context.code given_positional given_keyword with
  | Except.error m => Except.error m
  | Except.ok _ =>
    let ea := number_of_arguments_to_set context.code given_positional
    let pos_end := pos_start + ea.2
    let key_start := pos_start + given_positional
    let locals1 := set_positional_arguments caller_regs context.locals
      ((args.drop pos_start).take ea.2)
    let locals2 :=
      if ea.1 then
        pack_excessive_arguments caller_regs locals1
          (rest_argument_index context.code)
          ((args.drop pos_end).take (key_start - pos_end))
      else locals1
    let locals3 :=
      if 0 < given_keyword then
        prepare_keyword_arguments caller_regs context.code locals2 (args.drop key_start)
      else locals2
    Except.ok { context with locals := locals3 }

/-- A register or local file after `reset()` (register.rs / binding, both
outside src/); Modelled from the spec (§3, §8): every slot is cleared,
the size is unchanged. -/
def reset_values (vs : List Val) : List Val :=
  vs.map (fun _ => Val.nullp)

/-- From machine.rs lines 1084-1103 (`InstructionType::TailCall`): the
current context is reused — its locals are reset, the (still unreset)
argument registers are read by `prepare_new_context` (positional count
`arg(0)`, keyword count `arg(1)`, argument registers from position 2),
then the register file is reset and `instruction_index` is set to 0. -/
def tail_call_step (c : ExecutionContext) (args : List Nat)
    (given_positional given_keyword : Nat) : Except String ExecutionContext :=
  match prepare_new_context c.registers args { c with locals := reset_values c.locals }
      given_positional given_keyword 2 with
  | Except.error m => Except.error m
  | Except.ok c2 =>
    Except.ok { c2 with registers := reset_values c2.registers, instruction_index := 0 }

/-- Action taken at a safepoint: suspend for garbage collection,
reschedule on reduction exhaustion, or keep running with one reduction
consumed. -/
inductive SafepointAction where
  | gc_suspend : SafepointAction
  | rescheduled : SafepointAction
  | continued : Nat → SafepointAction
  deriving DecidableEq

/-- From the `safepoint_and_reduce!` macro (machine.rs lines 110-125) and
`Machine::gc_safepoint` (lines 1755-1773): when either GC flag is set a
collection request is scheduled and the interpreter returns; otherwise a
reduction is consumed, or, exhausted, the process is re-queued on its
pool and the interpreter returns. -/
def safepoint_and_reduce (collect_young collect_mailbox : Bool)
    (reductions : Nat) : SafepointAction :=
  if collect_young || collect_mailbox then SafepointAction.gc_suspend
  else if 0 < reductions then SafepointAction.continued (reductions - 1)
  else SafepointAction.rescheduled

/-- The TailCall instruction as one dispatch step of `Machine::run`,
including the safepoint that fires right after the context is rewritten. -/
def tail_call_dispatch (stack : List ExecutionContext) (args : List Nat)
    (given_positional given_keyword : Nat)
    (collect_young collect_mailbox : Bool) (reductions : Nat) :
    Except String (List ExecutionContext × SafepointAction) :=
  match stack with
  | [] => Except.error "no execution context"
  | c :: rest =>
    match tail_call_step c args given_positional given_keyword with
    | Except.error m => Except.error m
    | Except.ok c2 =>
      Except.ok (c2 :: rest, safepoint_and_reduce collect_young collect_mailbox reductions)

/-- `ExecutionContext::from_block` (execution_context.rs, outside src/);
Modelled from the spec (§3, §4.1): a fresh frame for the block's code
with cleared register and local files sized by the code and the given
return register in the caller. -/
def from_block (code : CompiledCode) (return_register : Option Nat) :
    ExecutionContext :=
  { code := code,
    instruction_index := 0,
    registers := List.replicate code.max_registers Val.nullp,
    locals := List.replicate code.max_locals Val.nullp,
    receiver := Val.nilObj,
    return_register := return_register,
    deferred_blocks := [],
    terminate_upon_return := false }

/-- From machine.rs lines 1033-1057 (`InstructionType::RunBlock`): a new
context is created from the block with the result register as return
register, prepared with positional count `arg(2)`, keyword count
`arg(3)` and argument registers from position 4, then pushed;
`enter_context!` stores the caller's post-increment index `i` before
switching. -/
def run_block_step (c : ExecutionContext) (rest : List ExecutionContext)
    (block_code : CompiledCode) (register : Nat) (args : List Nat)
    (given_positional given_keyword i : Nat) :
    Except String (List ExecutionContext) :=
  match prepare_new_context c.registers args (from_block block_code (some register))
      given_positional given_keyword 4 with
  | Except.error m => Except.error m
  | Except.ok new_ctx =>
    Except.ok (new_ctx :: { c with instruction_index := i } :: rest)

/-- From config.rs line 23. -/
def DEFAULT_REDUCTIONS : Nat := 1000

/-- From config.rs line 29. -/
def DEFAULT_NETPOLL_THREADS : Nat := 1

/-- From config.rs line 32. -/
def MAX_NETPOLL_THREADS : Nat := 127

/-- A decimal digit character and its value. -/
def char_digit (ch : Char) : Option Nat :=
  if 48 ≤ ch.toNat ∧ ch.toNat ≤ 57 then some (ch.toNat - 48) else none

/-- Decimal-numeral accumulation over the characters of the raw value. -/
def parse_digits : List Char → Nat → Option Nat
  | [], acc => some acc
  | ch :: rest, acc =>
    match char_digit ch with
    | some d => parse_digits rest (acc * 10 + d)
    | none => none

/-- Rust's `str::parse::<u8>` on the raw environment value: a non-empty
all-digit decimal numeral no larger than `u8::MAX`. -/
def parse_u8 (s : String) : Option Nat :=
  match s.data with
  | [] => none
  | ch :: rest =>
    match parse_digits (ch :: rest) 0 with
    | some n => if n ≤ 255 then some n else none
    | none => none

/-- Rust's `str::parse::<u16>` on the raw environment value: a non-empty
all-digit decimal numeral no larger than `u16::MAX`. -/
def parse_u16 (s : String) : Option Nat :=
  match s.data with
  | [] => none
  | ch :: rest =>
    match parse_digits (ch :: rest) 0 with
    | some n => if n ≤ 65535 then some n else none
    | none => none

/-- From the `set_from_env!` macro (config.rs lines 9-19): the variable
actually read is `concat!("INKO_", key)`; a value that parses and is
positive replaces the field, anything else leaves the default. -/
def set_from_env (env : String → Option String) (key : String)
    (parse : String → Option Nat) (current : Nat) : Nat :=
  match env ("INKO_" ++ key) with
  | some raw_value =>
    match parse raw_value with
    | some value => if 0 < value then value else current
    | none => current
  | none => current

/-- From config.rs lines 35-52. -/
structure Config where
  process_threads : Nat
  backup_threads : Nat
  netpoll_threads : Nat
  reductions : Nat
  deriving DecidableEq, Repr

/-- From `Config::new` (config.rs lines 55-65); the CPU count comes from
`available_parallelism` and is a parameter here. -/
def Config.new (cpu_count : Nat) : Config :=
  { process_threads := cpu_count,
    backup_threads := cpu_count * 4,
    netpoll_threads := DEFAULT_NETPOLL_THREADS,
    reductions := DEFAULT_REDUCTIONS }

/-- From `Config::verify` (config.rs lines 79-83): the netpoll-thread
count is clamped to `MAX_NETPOLL_THREADS`. -/
def Config.verify (c : Config) : Config :=
  if MAX_NETPOLL_THREADS < c.netpoll_threads then
    { c with netpoll_threads := MAX_NETPOLL_THREADS }
  else c

/-- From `Config::from_env` (config.rs lines 67-77).  The four
`set_from_env!` invocations touch pairwise-distinct fields, so the
sequential updates of the source equal this simultaneous record. -/
def Config.from_env (env : String → Option String) (cpu_count : Nat) : Config :=
  Config.verify
    { process_threads :=
        set_from_env env "PROCESS_THREADS" parse_u16 (Config.new cpu_count).process_threads,
      backup_threads :=
        set_from_env env "BACKUP_THREADS" parse_u16 (Config.new cpu_count).backup_threads,
      reductions :=
        set_from_env env "REDUCTIONS" parse_u16 (Config.new cpu_count).reductions,
      netpoll_threads :=
        set_from_env env "NETPOLL_THREADS" parse_u8 (Config.new cpu_count).netpoll_threads }

/-- A compiled code unit with an empty catch table, used by the concrete
evaluations below. -/
def code_nocatch : CompiledCode :=
  { name := "outer",
    catch_table := [],
    required_arguments := 0,
    optional_arguments := 0,
    rest_argument := false,
    keywords := [],
    arity_label := "0",
    max_registers := 2,
    max_locals := 0 }

/-- A catch-table entry covering instruction indices 2..3 (start
exclusive, end inclusive). -/
def entry_w : CatchEntry :=
  { start := 1, end_ := 3, jump_to := 9, register := 0 }

/-- A compiled code unit whose catch table holds `entry_w`. -/
def code_catch : CompiledCode :=
  { code_nocatch with name := "handler_frame", catch_table := [entry_w] }

/-- A plain two-register frame over the given code at the given
instruction index. -/
def ctx_of (code : CompiledCode) (idx : Nat) : ExecutionContext :=
  { code := code,
    instruction_index := idx,
    registers := [Val.nullp, Val.nullp],
    locals := [],
    receiver := Val.nilObj,
    return_register := none,
    deferred_blocks := [],
    terminate_upon_return := false }

/-- A handler-less frame carrying one deferred block. -/
def cw0 : ExecutionContext :=
  { ctx_of code_nocatch 5 with deferred_blocks := [Val.obj 1] }

/-- A frame whose catch table covers its instruction index 2. -/
def cw1 : ExecutionContext := ctx_of code_catch 2

/-- A caller frame below the catching frame. -/
def cw2 : ExecutionContext := ctx_of code_nocatch 7

/-- A handler-less root frame. -/
def cw3 : ExecutionContext := ctx_of code_nocatch 9

/-- Code with a catch table covering indices 2..4, for the IntegerDiv
evaluation. -/
def div_code : CompiledCode :=
  { name := "div_frame",
    catch_table := [{ start := 1, end_ := 4, jump_to := 6, register := 0 }],
    required_arguments := 0,
    optional_arguments := 0,
    rest_argument := false,
    keywords := [],
    arity_label := "0",
    max_registers := 3,
    max_locals := 0 }

/-- A frame at instruction index 3 (covered by div_code's catch table)
whose register 1 holds 10 and register 2 holds the integer zero. -/
def div_ctx : ExecutionContext :=
  { code := div_code,
    instruction_index := 3,
    registers := [Val.nullp, Val.vint 10, Val.vint 0],
    locals := [],
    receiver := Val.nilObj,
    return_register := none,
    deferred_blocks := [],
    terminate_upon_return := false }

/-- A catch-less frame whose register 2 holds the integer zero. -/
def div_ctx2 : ExecutionContext :=
  { div_ctx with code := code_nocatch, registers := [Val.nullp, Val.vint 5, Val.vint 0] }

/-- A process about to receive with one message queued. -/
def recv_st : ReceiveState :=
  { mailbox := [Val.vint 42], waiting_for_message := false, context := ctx_of code_nocatch 4 }

/-- A process about to receive with an empty mailbox, not yet waiting. -/
def recv_st_empty : ReceiveState :=
  { mailbox := [], waiting_for_message := false, context := ctx_of code_nocatch 4 }

/-- A frame with the terminate-upon-return flag set, an empty deferred
queue and a return register. -/
def ret_ctx : ExecutionContext :=
  { ctx_of code_nocatch 5 with terminate_upon_return := true, return_register := some 0 }

/-- A plain returning frame with a return register. -/
def ret_ctx2 : ExecutionContext :=
  { ctx_of code_nocatch 5 with return_register := some 0 }

/-- Code taking exactly one argument. -/
def tc_code : CompiledCode :=
  { name := "loop",
    catch_table := [],
    required_arguments := 1,
    optional_arguments := 0,
    rest_argument := false,
    keywords := [],
    arity_label := "1",
    max_registers := 3,
    max_locals := 1 }

/-- A frame executing tc_code with live registers and one live local. -/
def tc_ctx : ExecutionContext :=
  { code := tc_code,
    instruction_index := 8,
    registers := [Val.vint 7, Val.vint 8, Val.vint 9],
    locals := [Val.vint 5],
    receiver := Val.nilObj,
    return_register := some 0,
    deferred_blocks := [],
    terminate_upon_return := false }

/-- The frame tc_ctx after `TailCall r0=1, r1=0, r2` (one positional
argument taken from register 2): locals rewritten from the argument
register, registers cleared, instruction index 0. -/
def tc_ctx_after : ExecutionContext :=
  { tc_ctx with
      locals := [Val.vint 9],
      registers := [Val.nullp, Val.nullp, Val.nullp],
      instruction_index := 0 }

/-- Code declaring keyword arguments a (local 0) and b (local 1). -/
def kw_code : CompiledCode :=
  { name := "kwfun",
    catch_table := [],
    required_arguments := 0,
    optional_arguments := 2,
    rest_argument := false,
    keywords := [("a", 0), ("b", 1)],
    arity_label := "2",
    max_registers := 4,
    max_locals := 2 }

/-- An environment defining the unprefixed name NETPOLL_THREADS only. -/
def env_plain : String → Option String :=
  fun key => if key = "NETPOLL_THREADS" then some "200" else none

/-- An environment defining INKO_NETPOLL_THREADS=200. -/
def env_inko : String → Option String :=
  fun key => if key = "INKO_NETPOLL_THREADS" then some "200" else none

theorem carried_deferred_nil : carried_deferred [] = [] := rfl

theorem carried_deferred_cons (c : ExecutionContext) (cs : List ExecutionContext) :
    carried_deferred (c :: cs) = c.deferred_blocks ++ carried_deferred cs := rfl

theorem throw_unwind_cons_nomatch (pid : Nat) (value : Val) (d : List Val)
    (c : ExecutionContext) (rest : List ExecutionContext)
    (h : find_catch_entry c.code c.instruction_index = none)
    (hne : rest ≠ []) :
    throw_unwind pid value d (c :: rest) =
      throw_unwind pid value (d ++ c.deferred_blocks) rest := by
  cases rest with
  | nil => exact absurd rfl hne
  | cons c2 rest2 => simp [throw_unwind, h]

theorem throw_unwind_cons_match (pid : Nat) (value : Val) (d : List Val)
    (c : ExecutionContext) (rest : List ExecutionContext) (e : CatchEntry)
    (h : find_catch_entry c.code c.instruction_index = some e) :
    throw_unwind pid value d (c :: rest) =
      ({ c with
          instruction_index := e.jump_to,
          registers := setReg c.registers e.register value,
          deferred_blocks := c.deferred_blocks ++ d } :: rest, none) := by
  cases rest with
  | nil => simp [throw_unwind, h]
  | cons c2 rest2 => simp [throw_unwind, h]

theorem throw_unwind_skips (pid : Nat) (value : Val) (pre : List ExecutionContext)
    (cF : ExecutionContext) (rest : List ExecutionContext) (e : CatchEntry)
    (d : List Val)
    (hpre : ∀ c ∈ pre, find_catch_entry c.code c.instruction_index = none)
    (hF : find_catch_entry cF.code cF.instruction_index = some e) :
    throw_unwind pid value d (pre ++ cF :: rest) =
      ({ cF with
          instruction_index := e.jump_to,
          registers := setReg cF.registers e.register value,
          deferred_blocks := cF.deferred_blocks ++ (d ++ carried_deferred pre) } :: rest,
       none) := by
  induction pre generalizing d with
  | nil =>
    simp only [List.nil_append, carried_deferred_nil, List.append_nil]
    exact throw_unwind_cons_match pid value d cF rest e hF
  | cons p ps ih =>
    have hp : find_catch_entry p.code p.instruction_index = none :=
      hpre p (List.mem_cons_self p ps)
    have hps : ∀ c ∈ ps, find_catch_entry c.code c.instruction_index = none :=
      fun c hc => hpre c (List.mem_cons_of_mem p hc)
    have hne : ps ++ cF :: rest ≠ [] := by
      intro habs
      exact absurd (List.append_eq_nil.mp habs).2 (by simp)
    calc throw_unwind pid value d ((p :: ps) ++ cF :: rest)
        = throw_unwind pid value (d ++ p.deferred_blocks) (ps ++ cF :: rest) :=
          throw_unwind_cons_nomatch pid value d p (ps ++ cF :: rest) hp hne
      _ = _ := by
          rw [ih (d ++ p.deferred_blocks) hps]
          simp [carried_deferred_cons, List.append_assoc]

theorem throw_unwind_all_nomatch (pid : Nat) (value : Val)
    (pre : List ExecutionContext) (c : ExecutionContext) (d : List Val)
    (hpre : ∀ x ∈ pre, find_catch_entry x.code x.instruction_index = none)
    (hc : find_catch_entry c.code c.instruction_index = none) :
    throw_unwind pid value d (pre ++ [c]) =
      ([{ c with
          deferred_blocks := c.deferred_blocks ++ (d ++ carried_deferred pre) }],
       some (uncaught_throw_message pid)) := by
  induction pre generalizing d with
  | nil =>
    simp only [List.nil_append, carried_deferred_nil, List.append_nil]
    simp [throw_unwind, hc]
  | cons p ps ih =>
    have hp : find_catch_entry p.code p.instruction_index = none :=
      hpre p (List.mem_cons_self p ps)
    have hps : ∀ x ∈ ps, find_catch_entry x.code x.instruction_index = none :=
      fun x hx => hpre x (List.mem_cons_of_mem p hx)
    have hne : ps ++ [c] ≠ [] := by
      intro habs
      exact absurd (List.append_eq_nil.mp habs).2 (by simp)
    calc throw_unwind pid value d ((p :: ps) ++ [c])
        = throw_unwind pid value (d ++ p.deferred_blocks) (ps ++ [c]) :=
          throw_unwind_cons_nomatch pid value d p (ps ++ [c]) hp hne
      _ = _ := by
          rw [ih (d ++ p.deferred_blocks) hps]
          simp [carried_deferred_cons, List.append_assoc]

/-- C2: a thrown value unwinds the context stack from the current frame
upward; the first frame whose catch table has an entry with
`start < instruction_index ≤ end` catches it: that frame's
`instruction_index` becomes the entry's `jump_to`, the thrown value is
written into the entry's register, every deferred block accumulated from
the unwound frames is spliced into that frame's deferred queue, and
unwinding stops, leaving no frame between the throw point and the
catching frame on the stack (the result is the updated catching frame
followed exactly by its callers `rest`). -/
theorem throw_catches_at_first_matching_frame (pid : Nat) (value : Val)
    (pre : List ExecutionContext) (cF : ExecutionContext)
    (rest : List ExecutionContext) (e : CatchEntry)
    (hpre : ∀ c ∈ pre, find_catch_entry c.code c.instruction_index = none)
    (hF : find_catch_entry cF.code cF.instruction_index = some e) :
    Machine.throw pid value (pre ++ cF :: rest) =
      ({ cF with
          instruction_index := e.jump_to,
          registers := setReg cF.registers e.register value,
          deferred_blocks := cF.deferred_blocks ++ carried_deferred pre } :: rest,
       none) ∧
    e.start < cF.instruction_index ∧ cF.instruction_index ≤ e.end_ := by
  refine ⟨?_, ?_⟩
  · have h := throw_unwind_skips pid value pre cF rest e [] hpre hF
    simpa [Machine.throw] using h
  · have h := List.find?_some hF
    exact of_decide_eq_true h

/-- Witness for the catching-unwind theorem: a concrete three-frame stack
(a defer-carrying frame over a covered frame over a caller) on which the
throw lands in the middle frame. -/
theorem throw_catches_witness :
    Machine.throw 1 (Val.vint 42) ([cw0] ++ cw1 :: [cw2]) =
      ({ cw1 with
          instruction_index := entry_w.jump_to,
          registers := setReg cw1.registers entry_w.register (Val.vint 42),
          deferred_blocks := cw1.deferred_blocks ++ carried_deferred [cw0] } :: [cw2],
       none) ∧
    entry_w.start < cw1.instruction_index ∧ cw1.instruction_index ≤ entry_w.end_ :=
  throw_catches_at_first_matching_frame 1 (Val.vint 42) [cw0] cw1 [cw2] entry_w
    (by intro c hc; rw [List.mem_singleton] at hc; subst hc; rfl) rfl

/-- C3 (amended): when no frame on the stack has a matching catch-table
entry, the unwind pops every non-root frame, moves the deferred blocks
carried from the unwound frames onto the remaining root context, and
fails with the process-panic message "A thrown value reached the
top-level in process P", which contains the PID. -/
theorem throw_uncaught_reaches_top_level (pid : Nat) (value : Val)
    (pre : List ExecutionContext) (c : ExecutionContext)
    (hpre : ∀ x ∈ pre, find_catch_entry x.code x.instruction_index = none)
    (hc : find_catch_entry c.code c.instruction_index = none) :
    Machine.throw pid value (pre ++ [c]) =
      ([{ c with deferred_blocks := c.deferred_blocks ++ carried_deferred pre }],
       some ("A thrown value reached the top-level in process " ++ toString pid)) := by
  have h := throw_unwind_all_nomatch pid value pre c [] hpre hc
  simpa [Machine.throw, uncaught_throw_message] using h

/-- Witness for the uncaught-throw theorem: a concrete two-frame stack
with no handler anywhere. -/
theorem throw_uncaught_witness :
    Machine.throw 3 Val.nilObj ([cw0] ++ [cw3]) =
      ([{ cw3 with deferred_blocks := cw3.deferred_blocks ++ carried_deferred [cw0] }],
       some ("A thrown value reached the top-level in process " ++ toString 3)) :=
  throw_uncaught_reaches_top_level 3 Val.nilObj [cw0] cw3
    (by intro x hx; rw [List.mem_singleton] at hx; subst hx; rfl) rfl

/-- C3 (counterexample): the claim states the uncaught-throw panic
message is "uncaught throw in process P"; on a concrete handler-less
stack in process 7 the code produces "A thrown value reached the
top-level in process 7", a different string. -/
theorem throw_uncaught_message_counterexample :
    (Machine.throw 7 (Val.vint 1) [cw3]).2 =
      some "A thrown value reached the top-level in process 7" ∧
    "A thrown value reached the top-level in process 7" ≠
      "uncaught throw in process 7" :=
  ⟨rfl, by decide⟩

/-- C1 (counterexample): the claim states an IntegerDiv with zero divisor
fails with a thrown value dispatched via the catch-table unwind, so that
a covering catch table catches it and the process continues.  On a
concrete frame whose catch table covers the instruction and whose divisor
register holds the integer zero, the dispatch instead yields the
interpreter error outcome `StepFate.panicked` (the `return Err(..)` path
routed to Machine::panic), not a continuation through the catch table. -/
theorem integer_div_catch_table_counterexample :
    (find_catch_entry div_ctx.code div_ctx.instruction_index).isSome = true ∧
    (getReg div_ctx.registers 2).is_zero_integer = true ∧
    dispatch_integer_div [div_ctx] 0 1 2 =
      StepFate.panicked "Can not divide an Integer by 0" :=
  ⟨rfl, rfl, rfl⟩

/-- C1 (amended): for every execution of IntegerDiv whose divisor
register holds the integer zero, the handler fails with the interpreter
error "Can not divide an Integer by 0", which is routed to the
process-panic machinery rather than the catch-table unwind, so a covering
catch table does not catch it. -/
theorem integer_div_by_zero_is_vm_error (c : ExecutionContext)
    (rest : List ExecutionContext) (reg lhs_reg rhs_reg : Nat)
    (h : (getReg c.registers rhs_reg).is_zero_integer = true) :
    dispatch_integer_div (c :: rest) reg lhs_reg rhs_reg =
      StepFate.panicked "Can not divide an Integer by 0" := by
  simp [dispatch_integer_div, integer_div_step, h]

/-- Witness for the divide-by-zero theorem at a concrete catch-less
frame. -/
theorem integer_div_by_zero_is_vm_error_witness :
    dispatch_integer_div [div_ctx2] 0 1 2 =
      StepFate.panicked "Can not divide an Integer by 0" :=
  integer_div_by_zero_is_vm_error div_ctx2 [] 0 1 2 rfl

/-- C4: a ProcessReceiveMessage dispatch (instruction at index i, so the
post-increment fetch index is i + 1) pops a queued message into the
target register and clears the waiting state; with an empty mailbox and
the waiting state set (an expired timeout) it writes nil into the target
register and clears the waiting state; otherwise it enters the waiting
state, rewinds the instruction index to i so the receive re-executes on
resumption, and suspends with the (raw) optional-timeout value. -/
theorem process_receive_message_spec (nil_object : Val) (st : ReceiveState)
    (reg time_reg i : Nat) :
    (∀ msg rest_mail, st.mailbox = msg :: rest_mail →
      process_receive_message nil_object st reg time_reg (i + 1) =
        ReceiveOutcome.continued
          { st with
              mailbox := rest_mail,
              waiting_for_message := false,
              context := { st.context with
                registers := setReg st.context.registers reg msg } }) ∧
    (st.mailbox = [] → st.waiting_for_message = true →
      process_receive_message nil_object st reg time_reg (i + 1) =
        ReceiveOutcome.continued
          { st with
              waiting_for_message := false,
              context := { st.context with
                registers := setReg st.context.registers reg nil_object } }) ∧
    (st.mailbox = [] → st.waiting_for_message = false →
      process_receive_message nil_object st reg time_reg (i + 1) =
        ReceiveOutcome.suspended
          { st with
              waiting_for_message := true,
              context := { st.context with instruction_index := i } }
          (getReg st.context.registers time_reg)) := by
  refine ⟨?_, ?_, ?_⟩
  · intro msg rest_mail h
    simp [process_receive_message, h]
  · intro h hw
    simp [process_receive_message, h, hw]
  · intro h hw
    simp [process_receive_message, h, hw]

/-- Witness for the receive theorem: a concrete process with the message
42 queued pops it into register 0. -/
theorem process_receive_message_spec_witness :
    process_receive_message Val.nilObj recv_st 0 1 (4 + 1) =
      ReceiveOutcome.continued
        { recv_st with
            mailbox := [],
            waiting_for_message := false,
            context := { recv_st.context with
              registers := setReg recv_st.context.registers 0 (Val.vint 42) } } :=
  (process_receive_message_spec Val.nilObj recv_st 0 1 4).1 (Val.vint 42) [] rfl

/-- C7: at each interpreter return point with the process still alive the
resumption cursor is recorded in the context: a receive on an empty
mailbox (instruction at index i, fetch index i + 1) stores i so the
receive itself re-executes; ProcessSuspendCurrent stores the next
instruction i + 1; a MoveToPool to a valid, different pool of an unpinned
process stores the next instruction i + 1 before the process is handed to
the other pool; and a TailCall (followed by its safepoint, where
reduction exhaustion or a GC flag may return control) leaves the context
at instruction index 0, its resumption point. -/
theorem suspension_records_resumption_index (nil_object true_object false_object : Val)
    (st : ReceiveState) (c : ExecutionContext) (c2 : ExecutionContext)
    (reg time_reg pool_id current_pool i : Nat) (args : List Nat)
    (given_positional given_keyword : Nat) (valid_pool pinned : Bool)
    (hmail : st.mailbox = []) (hwait : st.waiting_for_message = false)
    (hvalid : valid_pool = true) (hpin : pinned = false)
    (hdiff : (pool_id == current_pool) = false)
    (htc : tail_call_step c args given_positional given_keyword = Except.ok c2) :
    process_receive_message nil_object st reg time_reg (i + 1) =
      ReceiveOutcome.suspended
        { st with
            waiting_for_message := true,
            context := { st.context with instruction_index := i } }
        (getReg st.context.registers time_reg) ∧
    process_suspend_current c time_reg (i + 1) =
      ({ c with instruction_index := i + 1 }, getReg c.registers time_reg) ∧
    move_to_pool true_object false_object c reg pool_id valid_pool pinned current_pool
        (i + 1) =
      MoveToPoolOutcome.rescheduled
        { c with
            registers := setReg c.registers reg true_object,
            instruction_index := i + 1 }
        pool_id ∧
    c2.instruction_index = 0 := by
  refine ⟨?_, rfl, ?_, ?_⟩
  · simp [process_receive_message, hmail, hwait]
  · simp [move_to_pool, hvalid, hpin, hdiff]
  · unfold tail_call_step at htc
    cases hp : prepare_new_context c.registers args { c with locals := reset_values c.locals }
        given_positional given_keyword 2 with
    | error m => rw [hp] at htc; cases htc
    | ok c3 =>
      rw [hp] at htc
      injection htc with h2
      rw [← h2]

/-- Witness for the resumption-cursor theorem at concrete inputs for all
four return points. -/
theorem suspension_records_resumption_index_witness :
    process_receive_message Val.nilObj recv_st_empty 0 1 (4 + 1) =
      ReceiveOutcome.suspended
        { recv_st_empty with
            waiting_for_message := true,
            context := { recv_st_empty.context with instruction_index := 4 } }
        (getReg recv_st_empty.context.registers 1) ∧
    process_suspend_current tc_ctx 1 (4 + 1) =
      ({ tc_ctx with instruction_index := 4 + 1 }, getReg tc_ctx.registers 1) ∧
    move_to_pool Val.trueObj Val.falseObj tc_ctx 0 1 true false 0 (4 + 1) =
      MoveToPoolOutcome.rescheduled
        { tc_ctx with
            registers := setReg tc_ctx.registers 0 Val.trueObj,
            instruction_index := 4 + 1 }
        1 ∧
    tc_ctx_after.instruction_index = 0 :=
  suspension_records_resumption_index Val.nilObj Val.trueObj Val.falseObj recv_st_empty
    tc_ctx tc_ctx_after 0 1 1 0 4 [1, 0, 2] 1 0 true false rfl rfl rfl rfl rfl rfl

/-- C5 (counterexample): the claim states that a Return with an empty
deferred queue writes the returned value into the caller's return
register and pops the context; on a concrete frame with an empty deferred
queue, a set return register and a caller below it, but with the
terminate-upon-return flag set, the dispatch instead halts the process
(`break 'exec_loop`) without writing or popping. -/
theorem return_terminate_counterexample :
    ret_ctx.deferred_blocks = [] ∧
    ret_ctx.return_register = some 0 ∧
    return_step Val.nilObj (ret_ctx :: [ctx_of code_nocatch 7]) (some 1) (5 + 1) =
      ReturnOutcome.halted_terminate :=
  ⟨rfl, rfl, rfl⟩

/-- C5 (amended): for a non-block Return (instruction at index i, fetch
index i + 1): a non-empty deferred queue is drained and scheduled, with
the context rewound to i so Return re-executes (finding the queue empty)
after the deferred blocks complete; with an empty queue and the
terminate-upon-return flag set the process halts; otherwise the returned
value (the optional value register, defaulting to nil) is written into
the caller's return register when one is set — the caller untouched
otherwise — and the context is popped; popping the root ends the
process. -/
theorem return_step_spec (nil_object : Val) (c : ExecutionContext)
    (rest : List ExecutionContext) (value_reg : Option Nat) (i : Nat) :
    (c.deferred_blocks ≠ [] →
      return_step nil_object (c :: rest) value_reg (i + 1) =
        ReturnOutcome.ran_deferred c.deferred_blocks
          { c with deferred_blocks := [], instruction_index := i } rest) ∧
    (c.deferred_blocks = [] → c.terminate_upon_return = true →
      return_step nil_object (c :: rest) value_reg (i + 1) =
        ReturnOutcome.halted_terminate) ∧
    (∀ parent rest2 r, c.deferred_blocks = [] → c.terminate_upon_return = false →
      rest = parent :: rest2 → c.return_register = some r →
      return_step nil_object (c :: rest) value_reg (i + 1) =
        ReturnOutcome.returned
          ({ parent with
              registers := setReg parent.registers r
                (return_object nil_object c value_reg) } :: rest2)) ∧
    (∀ parent rest2, c.deferred_blocks = [] → c.terminate_upon_return = false →
      rest = parent :: rest2 → c.return_register = none →
      return_step nil_object (c :: rest) value_reg (i + 1) =
        ReturnOutcome.returned (parent :: rest2)) ∧
    (c.deferred_blocks = [] → c.terminate_upon_return = false → rest = [] →
      return_step nil_object (c :: rest) value_reg (i + 1) =
        ReturnOutcome.finished) := by
  refine ⟨?_, ?_, ?_, ?_, ?_⟩
  · intro h
    obtain ⟨b, bs, hb⟩ := List.exists_cons_of_ne_nil h
    simp [return_step, hb]
  · intro h ht
    simp [return_step, h, ht]
  · intro parent rest2 r h ht hrest hr
    subst hrest
    simp [return_step, h, ht, hr]
  · intro parent rest2 h ht hrest hr
    subst hrest
    simp [return_step, h, ht, hr]
  · intro h ht hrest
    subst hrest
    simp [return_step, h, ht]

/-- Witness for the Return theorem: a concrete frame returning register 1
to its caller's register 0. -/
theorem return_step_spec_witness :
    return_step Val.nilObj (ret_ctx2 :: [cw2]) (some 1) (5 + 1) =
      ReturnOutcome.returned
        ({ cw2 with
            registers := setReg cw2.registers 0
              (return_object Val.nilObj ret_ctx2 (some 1)) } :: []) :=
  ((return_step_spec Val.nilObj ret_ctx2 [cw2] (some 1) 5).2.2.1) cw2 [] 0 rfl rfl rfl rfl

theorem reset_values_eq_replicate (vs : List Val) :
    reset_values vs = List.replicate vs.length Val.nullp := by
  induction vs with
  | nil => rfl
  | cons v vs ih =>
    simp only [reset_values, List.map_cons, List.length_cons, List.replicate_succ]
    exact congrArg (List.cons Val.nullp) ih

theorem prepare_new_context_ok (caller_regs : List Val) (args : List Nat)
    (ctx : ExecutionContext) (gp gk ps : Nat) (c3 : ExecutionContext)
    (h : prepare_new_context caller_regs args ctx gp gk ps = Except.ok c3) :
    c3.registers = ctx.registers ∧ c3.code = ctx.code := by
  unfold prepare_new_context at h
  cases hv : validate_number_of_arguments ctx.code gp gk with
  | error m => rw [hv] at h; cases h
  | ok u =>
    rw [hv] at h
    injection h with h2
    rw [← h2]
    exact ⟨rfl, rfl⟩

/-- C6: a successful TailCall reuses the current context: the dispatch
keeps the stack depth unchanged (the rewritten frame replaces the old one
one-for-one and the callers are untouched), every register slot is
cleared, the locals are the result of `prepare_new_context` (which writes
the argument-register values) applied to the fully reset locals, the code
is unchanged, `instruction_index` becomes 0, and the instruction counts
as a safepoint: the action taken is exactly
`safepoint_and_reduce` (GC-flag check, then reduction decrement). -/
theorem tail_call_reuses_context (c : ExecutionContext) (rest : List ExecutionContext)
    (args : List Nat) (given_positional given_keyword : Nat)
    (collect_young collect_mailbox : Bool) (reductions : Nat) (c2 : ExecutionContext)
    (h : tail_call_step c args given_positional given_keyword = Except.ok c2) :
    tail_call_dispatch (c :: rest) args given_positional given_keyword
        collect_young collect_mailbox reductions =
      Except.ok (c2 :: rest,
        safepoint_and_reduce collect_young collect_mailbox reductions) ∧
    (c2 :: rest).length = (c :: rest).length ∧
    c2.instruction_index = 0 ∧
    c2.registers = List.replicate c.registers.length Val.nullp ∧
    c2.code = c.code ∧
    (∃ c3, prepare_new_context c.registers args { c with locals := reset_values c.locals }
        given_positional given_keyword 2 = Except.ok c3 ∧ c2.locals = c3.locals) := by
  have key : c2.instruction_index = 0 ∧
      c2.registers = List.replicate c.registers.length Val.nullp ∧
      c2.code = c.code ∧
      (∃ c3, prepare_new_context c.registers args { c with locals := reset_values c.locals }
        given_positional given_keyword 2 = Except.ok c3 ∧ c2.locals = c3.locals) := by
    unfold tail_call_step at h
    cases hp : prepare_new_context c.registers args { c with locals := reset_values c.locals }
        given_positional given_keyword 2 with
    | error m => rw [hp] at h; cases h
    | ok c3 =>
      rw [hp] at h
      injection h with h2
      obtain ⟨hr, hcode⟩ := prepare_new_context_ok _ _ _ _ _ _ _ hp
      subst h2
      refine ⟨rfl, ?_, ?_, c3, rfl, rfl⟩
      · show reset_values c3.registers = List.replicate c.registers.length Val.nullp
        rw [reset_values_eq_replicate, hr]
      · exact hcode
  exact ⟨by simp [tail_call_dispatch, h], by simp, key.1, key.2.1, key.2.2.1, key.2.2.2⟩

/-- Witness for the TailCall theorem: the concrete frame tc_ctx
tail-calls with one positional argument taken from register 2. -/
theorem tail_call_reuses_context_witness :
    tail_call_dispatch (tc_ctx :: []) [1, 0, 2] 1 0 false false 100 =
      Except.ok (tc_ctx_after :: [], safepoint_and_reduce false false 100) ∧
    (tc_ctx_after :: []).length = (tc_ctx :: []).length ∧
    tc_ctx_after.instruction_index = 0 ∧
    tc_ctx_after.registers = List.replicate tc_ctx.registers.length Val.nullp ∧
    tc_ctx_after.code = tc_ctx.code ∧
    (∃ c3, prepare_new_context tc_ctx.registers [1, 0, 2]
        { tc_ctx with locals := reset_values tc_ctx.locals } 1 0 2 = Except.ok c3 ∧
      tc_ctx_after.locals = c3.locals) :=
  tail_call_reuses_context tc_ctx [] [1, 0, 2] 1 0 false false 100 tc_ctx_after rfl

/-- C8: when the positional plus keyword argument count fails the
callee's arity metadata, both RunBlock (against the block's code) and
TailCall (against the current context's code) fail with
"<name> takes N arguments but M were supplied", where <name> is the
callee's name, N its published arity label and M the total number of
arguments given. -/
theorem arity_validation_error_message (block_code : CompiledCode) (c : ExecutionContext)
    (rest : List ExecutionContext) (register : Nat) (args : List Nat)
    (given_positional given_keyword i : Nat)
    (hb : valid_number_of_arguments block_code (given_positional + given_keyword) = false)
    (hc : valid_number_of_arguments c.code (given_positional + given_keyword) = false) :
    run_block_step c rest block_code register args given_positional given_keyword i =
      Except.error (block_code.name ++ " takes " ++ block_code.arity_label ++
        " arguments but " ++ toString (given_positional + given_keyword) ++
        " were supplied") ∧
    tail_call_step c args given_positional given_keyword =
      Except.error (c.code.name ++ " takes " ++ c.code.arity_label ++
        " arguments but " ++ toString (given_positional + given_keyword) ++
        " were supplied") := by
  constructor
  · simp [run_block_step, prepare_new_context, validate_number_of_arguments,
      arity_error, from_block, hb]
  · simp [tail_call_step, prepare_new_context, validate_number_of_arguments,
      arity_error, hc]

/-- Witness for the arity-error theorem: tc_code requires one argument
and is given zero, from both call forms. -/
theorem arity_validation_error_message_witness :
    run_block_step tc_ctx [] tc_code 0 [0, 0] 0 0 9 =
      Except.error (tc_code.name ++ " takes " ++ tc_code.arity_label ++
        " arguments but " ++ toString (0 + 0) ++ " were supplied") ∧
    tail_call_step tc_ctx [0, 0] 0 0 =
      Except.error (tc_ctx.code.name ++ " takes " ++ tc_ctx.code.arity_label ++
        " arguments but " ++ toString (0 + 0) ++ " were supplied") :=
  arity_validation_error_message tc_code tc_ctx [] 0 [0, 0] 0 0 9 rfl rfl

theorem foldl_kw_step_id (caller_regs : List Val) (code : CompiledCode) :
    ∀ (ps : List (Nat × Nat)) (locals : List Val),
      (∀ p ∈ ps, argument_position code (getReg caller_regs p.1) = none) →
      ps.foldl (kw_step caller_regs code) locals = locals := by
  intro ps
  induction ps with
  | nil => intro locals _; rfl
  | cons p ps ih =>
    intro locals hall
    have hp := hall p (List.mem_cons_self p ps)
    have hps := fun q hq => hall q (List.mem_cons_of_mem p hq)
    simp only [List.foldl_cons, kw_step, hp]
    exact ih locals hps

/-- C10: in `prepare_keyword_arguments` a (name, value) register pair
whose name is not a declared argument of the callee is silently dropped —
no error is raised and the pass over that pair leaves the locals exactly
as they were (in particular, all-unknown keywords leave the locals
untouched) — while a pair whose name matches a declared argument
overwrites that argument's local with the value. -/
theorem keyword_arguments_lookup_spec (caller_regs : List Val) (code : CompiledCode)
    (locals : List Val) (kr vr : Nat) (rest : List Nat) (kws : List Nat) (j : Nat) :
    (argument_position code (getReg caller_regs kr) = none →
      prepare_keyword_arguments caller_regs code locals (kr :: vr :: rest) =
        prepare_keyword_arguments caller_regs code locals rest) ∧
    ((∀ p ∈ to_pairs kws, argument_position code (getReg caller_regs p.1) = none) →
      prepare_keyword_arguments caller_regs code locals kws = locals) ∧
    (argument_position code (getReg caller_regs kr) = some j →
      prepare_keyword_arguments caller_regs code locals (kr :: vr :: rest) =
        prepare_keyword_arguments caller_regs code
          (locals.set j (getReg caller_regs vr)) rest) := by
  refine ⟨?_, ?_, ?_⟩
  · intro h
    simp [prepare_keyword_arguments, to_pairs, kw_step, h]
  · intro h
    exact foldl_kw_step_id caller_regs code (to_pairs kws) locals h
  · intro h
    simp [prepare_keyword_arguments, to_pairs, kw_step, h]

/-- Witness for the keyword theorem: the keyword name "zzz" is not among
kw_code's declared arguments a, b, so the pair is dropped and the locals
are unchanged. -/
theorem keyword_arguments_lookup_spec_witness :
    prepare_keyword_arguments [Val.vstr "zzz", Val.vint 5] kw_code
      [Val.vint 1, Val.vint 2] [0, 1] = [Val.vint 1, Val.vint 2] :=
  (keyword_arguments_lookup_spec [Val.vstr "zzz", Val.vint 5] kw_code
      [Val.vint 1, Val.vint 2] 0 1 [] [0, 1] 0).2.1
    (by
      intro p hp
      rw [show to_pairs [0, 1] = [(0, 1)] from rfl, List.mem_singleton] at hp
      subst hp
      rfl)

/-- C9 (counterexample): the claim reads the configuration from the
NETPOLL_THREADS environment variable; the `set_from_env!` macro actually
reads `concat!("INKO_", ..)`, so an environment defining only the
unprefixed NETPOLL_THREADS=200 leaves the configured value at the default
1 rather than the claimed clamp result 127. -/
theorem netpoll_env_key_counterexample :
    env_plain "NETPOLL_THREADS" = some "200" ∧
    (Config.from_env env_plain 4).netpoll_threads = 1 ∧
    (1 : Nat) ≠ 127 := by
  refine ⟨rfl, by decide, by decide⟩

theorem verify_netpoll (cfg : Config) :
    (Config.verify cfg).netpoll_threads =
      if MAX_NETPOLL_THREADS < cfg.netpoll_threads then MAX_NETPOLL_THREADS
      else cfg.netpoll_threads := by
  unfold Config.verify
  split <;> rfl

/-- C9 (amended): the netpoll-thread count read from the
INKO_NETPOLL_THREADS environment variable is clamped to at most 127: the
configured value never exceeds 127; a parsed value of 200 yields exactly
127; and an unset variable, an unparsable value, or zero leaves the
default of 1. -/
theorem netpoll_threads_clamped (env : String → Option String) (cpu_count : Nat)
    (s : String) :
    (Config.from_env env cpu_count).netpoll_threads ≤ MAX_NETPOLL_THREADS ∧
    (env "INKO_NETPOLL_THREADS" = some "200" →
      (Config.from_env env cpu_count).netpoll_threads = 127) ∧
    (env "INKO_NETPOLL_THREADS" = some s → parse_u8 s = none →
      (Config.from_env env cpu_count).netpoll_threads = DEFAULT_NETPOLL_THREADS) ∧
    (env "INKO_NETPOLL_THREADS" = some s → parse_u8 s = some 0 →
      (Config.from_env env cpu_count).netpoll_threads = DEFAULT_NETPOLL_THREADS) ∧
    (env "INKO_NETPOLL_THREADS" = none →
      (Config.from_env env cpu_count).netpoll_threads = DEFAULT_NETPOLL_THREADS) := by
  have hname : ("INKO_" ++ "NETPOLL_THREADS" : String) = "INKO_NETPOLL_THREADS" := rfl
  have hfe : (Config.from_env env cpu_count).netpoll_threads =
      if MAX_NETPOLL_THREADS <
          set_from_env env "NETPOLL_THREADS" parse_u8 DEFAULT_NETPOLL_THREADS then
        MAX_NETPOLL_THREADS
      else set_from_env env "NETPOLL_THREADS" parse_u8 DEFAULT_NETPOLL_THREADS := by
    rw [show Config.from_env env cpu_count = Config.verify
        { process_threads :=
            set_from_env env "PROCESS_THREADS" parse_u16 (Config.new cpu_count).process_threads,
          backup_threads :=
            set_from_env env "BACKUP_THREADS" parse_u16 (Config.new cpu_count).backup_threads,
          reductions :=
            set_from_env env "REDUCTIONS" parse_u16 (Config.new cpu_count).reductions,
          netpoll_threads :=
            set_from_env env "NETPOLL_THREADS" parse_u8 (Config.new cpu_count).netpoll_threads }
      from rfl, verify_netpoll]
    rfl
  refine ⟨?_, ?_, ?_, ?_, ?_⟩
  · rw [hfe]
    by_cases hlt : MAX_NETPOLL_THREADS <
        set_from_env env "NETPOLL_THREADS" parse_u8 DEFAULT_NETPOLL_THREADS
    · rw [if_pos hlt]
    · rw [if_neg hlt]
      exact Nat.le_of_not_lt hlt
  · intro h
    have h200 : set_from_env env "NETPOLL_THREADS" parse_u8 DEFAULT_NETPOLL_THREADS = 200 := by
      unfold set_from_env
      rw [hname, h]
      decide
    rw [hfe, h200]
    decide
  · intro h hparse
    have hkeep : set_from_env env "NETPOLL_THREADS" parse_u8 DEFAULT_NETPOLL_THREADS =
        DEFAULT_NETPOLL_THREADS := by
      simp [set_from_env, hname, h, hparse]
    rw [hfe, hkeep]
    decide
  · intro h hparse
    have hkeep : set_from_env env "NETPOLL_THREADS" parse_u8 DEFAULT_NETPOLL_THREADS =
        DEFAULT_NETPOLL_THREADS := by
      simp [set_from_env, hname, h, hparse]
    rw [hfe, hkeep]
    decide
  · intro h
    have hkeep : set_from_env env "NETPOLL_THREADS" parse_u8 DEFAULT_NETPOLL_THREADS =
        DEFAULT_NETPOLL_THREADS := by
      simp [set_from_env, hname, h]
    rw [hfe, hkeep]
    decide

/-- Witness for the clamping theorem: INKO_NETPOLL_THREADS=200 is clamped
to 127. -/
theorem netpoll_threads_clamped_witness :
    (Config.from_env env_inko 4).netpoll_threads = 127 :=
  (netpoll_threads_clamped env_inko 4 "x").2.1 rfl

end InkoVM
